import Mathlib

/-!
Shallow embedding of `src/main.py` of the transcribe-bot repository: a Telegram
bot that receives a video, asks for the spoken language, downloads the file,
extracts the audio track, transcribes it and translates the transcript to
Russian.  The two handlers `handle_video` (lines 52-71) and
`process_language_choice` (lines 73-133) are modelled as pure functions over an
explicit session, an explicit scratch filesystem and an oracle environment
standing for the external services (Telegram transport, moviepy, whisper,
GoogleTranslator).  Every external call attempt is recorded in a trace so that
claims of the form "X is never invoked" become statements about traces.
-/

namespace TranscribeBot

/-- Telegram file identifiers (`message.video.file_id`), opaque strings. -/
abbrev FileId := String

/-- A Python exception, modelled by its message. -/
abbrev PyErr := String

/-- The aiogram FSM states used by the bot: the default state (no state set,
called `Idle` by the spec) and `TranscriptionStates.WaitingForLanguageChoice`
from `src/main.py` line 26. -/
inductive FsmState where
  | idle
  | waitingForLanguageChoice
deriving DecidableEq

/-- The per-user `FSMContext`: the current FSM state together with the state
data dictionary.  The only key the program ever stores is `video_file_id`
(line 65), so the dictionary is modelled as that optional entry. -/
structure Session where
  state : FsmState
  videoFileId : Option FileId
deriving DecidableEq

/-- The session after `state.clear()` (line 133): default state, empty data. -/
def clearedSession : Session := ⟨.idle, none⟩

/-- One recorded attempt of an external call made by the handlers.  Events are
recorded when the call is issued, before its outcome is known. -/
inductive Event where
  | reply (text : String)
  | updateData (fid : FileId)
  | setState (st : FsmState)
  | answerCb
  | editText (text : String)
  | getFile (fid : Option FileId)
  | makeDirs (dir : String)
  | downloadFile (src dest : String)
  | extractAudio (video audio : String)
  | transcribe (audio lang : String)
  | translate (src tgt text : String)
  | logErr (msg : String)
  | removeFile (path : String)
  | clearState
deriving DecidableEq

/-- Oracle outcomes of the external services.  Each field gives, for every
argument tuple, either a normal result or a raised exception. -/
structure Env where
  answer : Except PyErr Unit
  editText : String → Except PyErr Unit
  getFile : FileId → Except PyErr String
  downloadFile : String → String → Except PyErr Unit
  extractAudio : String → String → Except PyErr Unit
  transcribe : String → String → Except PyErr String
  translate : String → String → String → Except PyErr String

/-- The hard size ceiling of line 60: `20 * 1024 * 1024` bytes (20 MiB). -/
def sizeLimitBytes : Nat := 20 * 1024 * 1024

/-- Rejection message of line 61. -/
def sizeRejectText : String :=
  "❌ Этот файл слишком большой.\nЯ могу обрабатывать видео размером до 20 МБ."

/-- Language prompt of line 68. -/
def askLanguageText : String := "На каком языке речь в видео?"

/-- Processing-started notice of line 90. -/
def processingStartedText (lang : String) : String :=
  s!"Принято: \x27{lang}\x27. Начинаю обработку..."

/-- No-speech notice of line 113. -/
def noSpeechText : String := "Не удалось распознать речь в видео."

/-- Generic failure notice of line 127. -/
def genericErrorText : String := "Произошла ошибка при обработке видео."

/-- Combined result message of lines 119-122. -/
def resultText (lang orig transl : String) : String :=
  s!"**Оригинал ({lang}):**\n{orig}\n\n**Перевод (ru):**\n{transl}"

/-- The inbound video event: declared size and file identifier
(`message.video.file_size`, `message.video.file_id`). -/
structure VideoMessage where
  fileSize : Nat
  fileId : FileId

/-- `handle_video` (lines 52-71): reject oversized videos, otherwise store the
file id in the session data, ask for the language and enter
`WaitingForLanguageChoice`.  Returns the session after the handler together
with the trace of outbound actions. -/
def handle_video (msg : VideoMessage) (s : Session) : Session × List Event :=
  if msg.fileSize > sizeLimitBytes then
    (s, [.reply sizeRejectText])
  else
    (⟨.waitingForLanguageChoice, some msg.fileId⟩,
     [.updateData msg.fileId, .reply askLanguageText,
      .setState .waitingForLanguageChoice])

/-- Python `str.split` with a one-character separator, over the string's
character list: `pySplitAux sep cs acc` splits `cs`, with `acc` holding the
(reversed) characters of the current field. -/
def pySplitAux (sep : Char) : List Char → List Char → List String
  | [], acc => [String.mk acc.reverse]
  | c :: rest, acc =>
    if c = sep then String.mk acc.reverse :: pySplitAux sep rest []
    else pySplitAux sep rest (c :: acc)

/-- Python `s.split(sep)` for a one-character `sep`: e.g.
`pySplit an-underscore "lang_en" = ["lang", "en"]` and a string without the
separator yields the one-element list holding the whole string. -/
def pySplit (sep : Char) (s : String) : List String :=
  pySplitAux sep s.data []

/-- Models `callback.data.split('_')[1]` (line 80).  Indexing `[1]` yields the
second underscore-separated field, or raises `IndexError` (here: `none`) when
the data contains no underscore. -/
def langFromData (data : String) : Option String :=
  (pySplit '_' data).get? 1

/-- Drop leading whitespace characters from a character list. -/
def dropLeadingWs : List Char → List Char
  | [] => []
  | c :: cs => if c.isWhitespace then dropLeadingWs cs else c :: cs

/-- Python `str.strip()`: remove whitespace from both ends. -/
def pyStrip (s : String) : String :=
  String.mk ((dropLeadingWs (dropLeadingWs s.data).reverse).reverse)

/-- The truth value of `not transcribed_text.strip()` (line 112): the
transcript is empty or consists only of whitespace. -/
def blankTranscript (text : String) : Bool :=
  (pyStrip text).data.isEmpty

/-- Message of the `IndexError` raised by `callback.data.split('_')[1]`. -/
def indexErrText : PyErr := "IndexError: list index out of range"

/-- Scratch video path of line 99: `downloads/{file_id}.mp4`. -/
def videoPathOf (fid : FileId) : String := s!"downloads/{fid}.mp4"

/-- Scratch audio path of line 100: `downloads/{file_id}.mp3`. -/
def audioPathOf (fid : FileId) : String := s!"downloads/{fid}.mp3"

/-- The scratch filesystem: the set of existing paths, as a duplicate-free
list.  Creating a file (a completed download or audio write) inserts its
path. -/
def fsAdd (fs : List String) (p : String) : List String :=
  if p ∈ fs then fs else fs ++ [p]

/-- `os.remove p`: the path no longer exists afterwards. -/
def fsRemove (fs : List String) (p : String) : List String :=
  fs.filter (fun q => q ≠ p)

/-- Outcome of one invocation of the callback handler: either the coroutine
returned normally, or an exception escaped it (aiogram would log it at the
dispatcher level; the handler itself does nothing further). -/
inductive Outcome where
  | ok
  | uncaught (e : PyErr)
deriving DecidableEq

/-- Result of one invocation of the callback handler. -/
structure CycleResult where
  outcome : Outcome
  session : Session
  fs : List String
  trace : List Event
deriving DecidableEq

/-- One arm of the `finally` block (lines 130-131):
`if path and os.path.exists(path): os.remove(path)` for a path variable that
is `None` (`none`) when the assignment on lines 99-100 was never reached. -/
def removeIfExists (path : Option String) (fs : List String) (tr : List Event) :
    List String × List Event :=
  match path with
  | none => (fs, tr)
  | some p => if p ∈ fs then (fsRemove fs p, tr ++ [.removeFile p]) else (fs, tr)

/-- The `finally` block (lines 128-133): delete whichever scratch files exist,
then `state.clear()`. -/
def runFinally (vp ap : Option String) (fs : List String) (tr : List Event) :
    Session × List String × List Event :=
  let r1 := removeIfExists vp fs tr
  let r2 := removeIfExists ap r1.1 r1.2
  (clearedSession, r2.1, r2.2 ++ [.clearState])

/-- The `except` arm (lines 125-127) followed by the `finally` block: log the
exception, attempt the generic failure edit, then clean up.  When the edit in
the `except` arm itself raises, the `finally` block still runs and the new
exception escapes the handler. -/
def handleError (env : Env) (e : PyErr) (vp ap : Option String)
    (fs : List String) (tr : List Event) : CycleResult :=
  let r := runFinally vp ap fs (tr ++ [.logErr e, .editText genericErrorText])
  let oc : Outcome :=
    match env.editText genericErrorText with
    | .ok _ => .ok
    | .error e2 => .uncaught e2
  ⟨oc, r.1, r.2.1, r.2.2⟩

/-- A normal exit of the `try` block followed by the `finally` block. -/
def finishOk (vp ap : Option String) (fs : List String) (tr : List Event) :
    CycleResult :=
  let r := runFinally vp ap fs tr
  ⟨.ok, r.1, r.2.1, r.2.2⟩

/-- The `try` block (lines 94-124).  `bot.get_file(None)` raises before any
network traffic (the aiogram request model requires a string file id), which
is modelled by the `none` branch after the recorded fetch attempt.  The
moviepy pair `VideoFileClip` / `write_audiofile` (lines 105-107) is one
extraction stage. -/
def runTry (env : Env) (lang : String) (fileId : Option FileId)
    (fs : List String) (tr : List Event) : CycleResult :=
  let tr := tr ++ [.getFile fileId]
  match fileId with
  | none => handleError env "ValidationError: file_id must be a string" none none fs tr
  | some fid =>
    match env.getFile fid with
    | .error e => handleError env e none none fs tr
    | .ok filePath =>
      let vp := videoPathOf fid
      let ap := audioPathOf fid
      let tr := tr ++ [.makeDirs "downloads", .downloadFile filePath vp]
      match env.downloadFile filePath vp with
      | .error e => handleError env e (some vp) (some ap) fs tr
      | .ok _ =>
        let fs := fsAdd fs vp
        let tr := tr ++ [.extractAudio vp ap]
        match env.extractAudio vp ap with
        | .error e => handleError env e (some vp) (some ap) fs tr
        | .ok _ =>
          let fs := fsAdd fs ap
          let tr := tr ++ [.transcribe ap lang]
          match env.transcribe ap lang with
          | .error e => handleError env e (some vp) (some ap) fs tr
          | .ok text =>
            if blankTranscript text then
              let tr := tr ++ [.editText noSpeechText]
              match env.editText noSpeechText with
              | .error e => handleError env e (some vp) (some ap) fs tr
              | .ok _ => finishOk (some vp) (some ap) fs tr
            else
              let tr := tr ++ [.translate lang "ru" text]
              match env.translate lang "ru" text with
              | .error e => handleError env e (some vp) (some ap) fs tr
              | .ok transl =>
                let tr := tr ++ [.editText (resultText lang text transl)]
                match env.editText (resultText lang text transl) with
                | .error e => handleError env e (some vp) (some ap) fs tr
                | .ok _ => finishOk (some vp) (some ap) fs tr

/-- `process_language_choice` (lines 73-133), fired on a callback query while
the session is in `WaitingForLanguageChoice`.  The language split (line 80),
`callback.answer()` (line 87) and the first `edit_text` (line 90) run before
the `try` block: an exception in any of them escapes the handler with the
session untouched. -/
def process_language_choice (env : Env) (data : String) (s : Session)
    (fs : List String) : CycleResult :=
  match langFromData data with
  | none => ⟨.uncaught indexErrText, s, fs, []⟩
  | some lang =>
    match env.answer with
    | .error e => ⟨.uncaught e, s, fs, [.answerCb]⟩
    | .ok _ =>
      match env.editText (processingStartedText lang) with
      | .error e =>
          ⟨.uncaught e, s, fs, [.answerCb, .editText (processingStartedText lang)]⟩
      | .ok _ =>
          runTry env lang s.videoFileId fs
            [.answerCb, .editText (processingStartedText lang)]

/-- An oracle environment in which every external call succeeds. -/
def okEnv : Env where
  answer := .ok ()
  editText := fun _ => .ok ()
  getFile := fun _ => .ok "documents/file.mp4"
  downloadFile := fun _ _ => .ok ()
  extractAudio := fun _ _ => .ok ()
  transcribe := fun _ _ => .ok "hello"
  translate := fun _ _ _ => .ok "привет"

/-- Like `okEnv` but the Telegram file fetch raises. -/
def failGetFileEnv : Env := { okEnv with getFile := fun _ => .error "network down" }

/-- Like `okEnv` but the recognized transcript is whitespace-only. -/
def blankTranscriptEnv : Env := { okEnv with transcribe := fun _ _ => .ok "   " }

/-- Like `okEnv` but answering the callback raises. -/
def failAnswerEnv : Env := { okEnv with answer := .error "message not modified" }

/-- The caught-at-top-level error pattern of lines 125-133: the exception `e`
was printed to the log, the generic failure notice was issued, and the session
was cleared. -/
def caughtWith (r : CycleResult) (e : PyErr) : Prop :=
  .logErr e ∈ r.trace ∧ .editText genericErrorText ∈ r.trace ∧
    r.session = clearedSession

/-- The reading of C8's wording, from the spec only: the whole substring after
the FIRST underscore of the callback data (so for `lang_en_us` it would be
`en_us`). -/
def specAfterFirstUnderscore (data : String) : Option String :=
  match pySplit '_' data with
  | [] => none
  | [_] => none
  | _ :: rest => some (String.intercalate "_" rest)

/-- C1: an inbound video whose declared size exceeds 20 MiB only draws the
size-rejection reply — nothing is downloaded, no file reference is stored, the
session (hence an `Idle` session) is unchanged; a video of at most 20 MiB has
its file id stored and gets the language prompt and the
`WaitingForLanguageChoice` state. -/
theorem C1_size_gate (msg : VideoMessage) (s : Session) :
    (msg.fileSize > sizeLimitBytes →
      handle_video msg s = (s, [.reply sizeRejectText])) ∧
    (msg.fileSize ≤ sizeLimitBytes →
      handle_video msg s =
        (⟨.waitingForLanguageChoice, some msg.fileId⟩,
         [.updateData msg.fileId, .reply askLanguageText,
          .setState .waitingForLanguageChoice])) := by
  constructor
  · intro h
    rw [handle_video, if_pos h]
  · intro h
    rw [handle_video, if_neg (by omega)]

theorem C1_size_gate_witness :
    handle_video ⟨20 * 1024 * 1024 + 1, "big"⟩ ⟨.idle, none⟩ =
      (⟨.idle, none⟩, [.reply sizeRejectText]) ∧
    handle_video ⟨5 * 1024 * 1024, "ok"⟩ ⟨.idle, none⟩ =
      (⟨.waitingForLanguageChoice, some "ok"⟩,
       [.updateData "ok", .reply askLanguageText,
        .setState .waitingForLanguageChoice]) :=
  ⟨(C1_size_gate ⟨20 * 1024 * 1024 + 1, "big"⟩ ⟨.idle, none⟩).1 (by decide),
   (C1_size_gate ⟨5 * 1024 * 1024, "ok"⟩ ⟨.idle, none⟩).2 (by decide)⟩

/-- C5: after an accepted video event the session state is
`WaitingForLanguageChoice` and the stored reference is exactly the event's
file id. -/
theorem C5_accepted_video (msg : VideoMessage) (s : Session)
    (h : msg.fileSize ≤ sizeLimitBytes) :
    (handle_video msg s).1.state = .waitingForLanguageChoice ∧
    (handle_video msg s).1.videoFileId = some msg.fileId := by
  rw [handle_video, if_neg (by omega)]
  exact ⟨rfl, rfl⟩

theorem C5_accepted_video_witness :
    (handle_video ⟨1024, "abc"⟩ ⟨.idle, none⟩).1.state =
        FsmState.waitingForLanguageChoice ∧
    (handle_video ⟨1024, "abc"⟩ ⟨.idle, none⟩).1.videoFileId = some "abc" :=
  C5_accepted_video ⟨1024, "abc"⟩ ⟨.idle, none⟩ (by decide)

/-- C7: a new accepted video arriving while a session is already
`WaitingForLanguageChoice` with a stored reference overwrites that reference
with the new file id; the session holds a single optional reference, so no
queue exists. -/
theorem C7_overwrite_pending (msg : VideoMessage) (oldId : FileId)
    (h : msg.fileSize ≤ sizeLimitBytes) :
    (handle_video msg ⟨.waitingForLanguageChoice, some oldId⟩).1 =
      ⟨.waitingForLanguageChoice, some msg.fileId⟩ := by
  rw [handle_video, if_neg (by omega)]

theorem C7_overwrite_pending_witness :
    (handle_video ⟨7, "new"⟩ ⟨.waitingForLanguageChoice, some "old"⟩).1 =
      ⟨.waitingForLanguageChoice, some "new"⟩ :=
  C7_overwrite_pending ⟨7, "new"⟩ "old" (by decide)

/-- C9: a size rejection writes nothing to the session: for any prior session,
`WaitingForLanguageChoice` with a pending reference included, the session after
the rejection is identical, and the trace shows only the rejection reply. -/
theorem C9_reject_preserves_session (msg : VideoMessage) (s : Session)
    (h : msg.fileSize > sizeLimitBytes) :
    (handle_video msg s).1 = s ∧
    (handle_video msg s).2 = [.reply sizeRejectText] := by
  rw [handle_video, if_pos h]
  exact ⟨rfl, rfl⟩

theorem C9_reject_preserves_session_witness :
    (handle_video ⟨30 * 1024 * 1024, "huge"⟩
        ⟨.waitingForLanguageChoice, some "pending"⟩).1 =
      ⟨.waitingForLanguageChoice, some "pending"⟩ ∧
    (handle_video ⟨30 * 1024 * 1024, "huge"⟩
        ⟨.waitingForLanguageChoice, some "pending"⟩).2 =
      [.reply sizeRejectText] :=
  C9_reject_preserves_session ⟨30 * 1024 * 1024, "huge"⟩
    ⟨.waitingForLanguageChoice, some "pending"⟩ (by decide)

/-- C2 counterexample: with the session in `WaitingForLanguageChoice` but no
pending file reference, processing the callback `lang_en` still issues the
file-fetch call (`bot.get_file(file_id)` on line 96, with `file_id = None`):
the claim that no call to fetch the file is made is false. -/
theorem C2_counterexample_fetch_attempted :
    Event.getFile none ∈
      (process_language_choice okEnv "lang_en"
        ⟨.waitingForLanguageChoice, none⟩ []).trace := by decide

/-- C2 amended: with no pending file reference the controller still issues the
fetch attempt with the absent reference, but that call raises before any
transfer, so the actual file download (`bot.download_file`, line 103) is never
invoked: for every environment and callback data, if the session holds no
reference then no download event occurs in the trace. -/
theorem C2_no_download_without_reference (env : Env) (data : String)
    (s : Session) (fs : List String) (src dest : String)
    (h : s.videoFileId = none) :
    Event.downloadFile src dest ∉
      (process_language_choice env data s fs).trace := by
  unfold process_language_choice
  cases hl : langFromData data with
  | none => simp
  | some lang =>
    cases ha : env.answer with
    | error e => simp
    | ok u =>
      cases he : env.editText (processingStartedText lang) with
      | error e => simp [he]
      | ok v =>
        simp only [he, h, runTry, handleError, runFinally, removeIfExists]
        cases hg : env.editText genericErrorText <;> simp [hg]

theorem C2_no_download_without_reference_witness :
    Event.downloadFile "documents/file.mp4" "downloads/x.mp4" ∉
      (process_language_choice okEnv "lang_en"
        ⟨.waitingForLanguageChoice, none⟩ []).trace :=
  C2_no_download_without_reference okEnv "lang_en"
    ⟨.waitingForLanguageChoice, none⟩ [] "documents/file.mp4"
    "downloads/x.mp4" rfl

theorem mem_trace_removeIfExists (x : Event) (o : Option String)
    (fs : List String) (tr : List Event) (h : x ∈ tr) :
    x ∈ (removeIfExists o fs tr).2 := by
  cases o with
  | none => exact h
  | some p =>
    simp only [removeIfExists]
    split <;> simp [h]

theorem mem_trace_runFinally (x : Event) (vp ap : Option String)
    (fs : List String) (tr : List Event) (h : x ∈ tr) :
    x ∈ (runFinally vp ap fs tr).2.2 :=
  List.mem_append_left _
    (mem_trace_removeIfExists x ap _ _ (mem_trace_removeIfExists x vp fs tr h))

theorem handleError_caught (env : Env) (e : PyErr) (vp ap : Option String)
    (fs : List String) (tr : List Event) :
    caughtWith (handleError env e vp ap fs tr) e := by
  refine ⟨?_, ?_, rfl⟩
  · exact mem_trace_runFinally _ vp ap fs _ (by simp)
  · exact mem_trace_runFinally _ vp ap fs _ (by simp)

theorem not_mem_fs_removeIfExists_self (p : String) (fs : List String)
    (tr : List Event) : p ∉ (removeIfExists (some p) fs tr).1 := by
  simp only [removeIfExists]
  split
  · simp [fsRemove]
  · assumption

theorem not_mem_fs_removeIfExists (x : String) (o : Option String)
    (fs : List String) (tr : List Event) (h : x ∉ fs) :
    x ∉ (removeIfExists o fs tr).1 := by
  cases o with
  | none => exact h
  | some p =>
    simp only [removeIfExists]
    split
    · simp only [fsRemove, List.mem_filter]
      exact fun hc => h hc.1
    · exact h

theorem runFinally_fs_clean (vp ap : String) (fs : List String)
    (tr : List Event) :
    vp ∉ (runFinally (some vp) (some ap) fs tr).2.1 ∧
    ap ∉ (runFinally (some vp) (some ap) fs tr).2.1 :=
  ⟨not_mem_fs_removeIfExists vp (some ap) _ _
      (not_mem_fs_removeIfExists_self vp fs tr),
   not_mem_fs_removeIfExists_self ap _ _⟩

/-- C3: once the callback handler has entered the `try` block, an exception
from any pipeline stage — file fetch, download, audio extraction, speech
recognition or translation — is caught at the top of the cycle: the exception
is logged, the generic processing-failure edit is issued, and the session is
cleared. -/
theorem C3_pipeline_errors_caught (env : Env) (data : String) (s : Session)
    (fs : List String) (lang : String) (fid : FileId)
    (hl : langFromData data = some lang)
    (hf : s.videoFileId = some fid)
    (ha : env.answer = .ok ())
    (he : env.editText (processingStartedText lang) = .ok ()) :
    (∀ e, env.getFile fid = .error e →
      caughtWith (process_language_choice env data s fs) e) ∧
    (∀ fp e, env.getFile fid = .ok fp →
      env.downloadFile fp (videoPathOf fid) = .error e →
      caughtWith (process_language_choice env data s fs) e) ∧
    (∀ fp e, env.getFile fid = .ok fp →
      env.downloadFile fp (videoPathOf fid) = .ok () →
      env.extractAudio (videoPathOf fid) (audioPathOf fid) = .error e →
      caughtWith (process_language_choice env data s fs) e) ∧
    (∀ fp e, env.getFile fid = .ok fp →
      env.downloadFile fp (videoPathOf fid) = .ok () →
      env.extractAudio (videoPathOf fid) (audioPathOf fid) = .ok () →
      env.transcribe (audioPathOf fid) lang = .error e →
      caughtWith (process_language_choice env data s fs) e) ∧
    (∀ fp t e, env.getFile fid = .ok fp →
      env.downloadFile fp (videoPathOf fid) = .ok () →
      env.extractAudio (videoPathOf fid) (audioPathOf fid) = .ok () →
      env.transcribe (audioPathOf fid) lang = .ok t →
      blankTranscript t = false →
      env.translate lang "ru" t = .error e →
      caughtWith (process_language_choice env data s fs) e) := by
  have hred : process_language_choice env data s fs =
      runTry env lang (some fid) fs
        [.answerCb, .editText (processingStartedText lang)] := by
    simp only [process_language_choice, hl, ha, he, hf]
  refine ⟨?_, ?_, ?_, ?_, ?_⟩
  · intro e hg
    rw [hred]
    simp only [runTry, hg]
    exact handleError_caught env e none none fs _
  · intro fp e hg hd
    rw [hred]
    simp only [runTry, hg, hd]
    exact handleError_caught env e _ _ fs _
  · intro fp e hg hd hx
    rw [hred]
    simp only [runTry, hg, hd, hx]
    exact handleError_caught env e _ _ _ _
  · intro fp e hg hd hx ht
    rw [hred]
    simp only [runTry, hg, hd, hx, ht]
    exact handleError_caught env e _ _ _ _
  · intro fp t e hg hd hx ht hemp htr
    rw [hred]
    simp only [runTry, hg, hd, hx, ht]
    rw [if_neg (by simp [hemp])]
    simp only [htr]
    exact handleError_caught env e _ _ _ _

theorem C3_pipeline_errors_caught_witness :
    caughtWith
      (process_language_choice failGetFileEnv "lang_en"
        ⟨.waitingForLanguageChoice, some "vid"⟩ [])
      "network down" :=
  (C3_pipeline_errors_caught failGetFileEnv "lang_en"
      ⟨.waitingForLanguageChoice, some "vid"⟩ [] "en" "vid"
      rfl rfl rfl rfl).1 "network down" rfl

theorem handleError_session (env : Env) (e : PyErr) (vp ap : Option String)
    (fs : List String) (tr : List Event) :
    (handleError env e vp ap fs tr).session = clearedSession := rfl

theorem finishOk_session (vp ap : Option String) (fs : List String)
    (tr : List Event) : (finishOk vp ap fs tr).session = clearedSession := rfl

theorem handleError_fs_clean (env : Env) (e : PyErr) (vp ap : String)
    (fs : List String) (tr : List Event) :
    vp ∉ (handleError env e (some vp) (some ap) fs tr).fs ∧
    ap ∉ (handleError env e (some vp) (some ap) fs tr).fs :=
  runFinally_fs_clean vp ap fs _

theorem finishOk_fs_clean (vp ap : String) (fs : List String)
    (tr : List Event) :
    vp ∉ (finishOk (some vp) (some ap) fs tr).fs ∧
    ap ∉ (finishOk (some vp) (some ap) fs tr).fs :=
  runFinally_fs_clean vp ap fs tr

/-- C4: whatever the outcome of a cycle that entered the `try` block —
success, empty-transcript short-circuit, or an exception at any pipeline
stage, including one raised before either scratch file was created — the
session ends cleared (`Idle`, no pending reference) and neither the candidate
video file nor the candidate audio file exists afterwards, provided neither
existed when the cycle began. -/
theorem C4_cycle_cleanup (env : Env) (data : String) (s : Session)
    (fs : List String) (lang : String) (fid : FileId)
    (hl : langFromData data = some lang)
    (hf : s.videoFileId = some fid)
    (ha : env.answer = .ok ())
    (he : env.editText (processingStartedText lang) = .ok ())
    (hv : videoPathOf fid ∉ fs) (hap : audioPathOf fid ∉ fs) :
    (process_language_choice env data s fs).session = clearedSession ∧
    videoPathOf fid ∉ (process_language_choice env data s fs).fs ∧
    audioPathOf fid ∉ (process_language_choice env data s fs).fs := by
  have hred : process_language_choice env data s fs =
      runTry env lang (some fid) fs
        [.answerCb, .editText (processingStartedText lang)] := by
    simp only [process_language_choice, hl, ha, he, hf]
  rw [hred]
  simp only [runTry]
  cases hg : env.getFile fid with
  | error e =>
    simp only [hg]
    exact ⟨rfl, hv, hap⟩
  | ok fp =>
    simp only [hg]
    cases hd : env.downloadFile fp (videoPathOf fid) with
    | error e =>
      simp only [hd]
      exact ⟨rfl, (handleError_fs_clean _ _ _ _ _ _).1,
        (handleError_fs_clean _ _ _ _ _ _).2⟩
    | ok u =>
      simp only [hd]
      cases hx : env.extractAudio (videoPathOf fid) (audioPathOf fid) with
      | error e =>
        simp only [hx]
        exact ⟨rfl, (handleError_fs_clean _ _ _ _ _ _).1,
          (handleError_fs_clean _ _ _ _ _ _).2⟩
      | ok v =>
        simp only [hx]
        cases ht : env.transcribe (audioPathOf fid) lang with
        | error e =>
          simp only [ht]
          exact ⟨rfl, (handleError_fs_clean _ _ _ _ _ _).1,
            (handleError_fs_clean _ _ _ _ _ _).2⟩
        | ok t =>
          simp only [ht]
          by_cases hemp : blankTranscript t = true
          · rw [if_pos hemp]
            cases hn : env.editText noSpeechText with
            | error e =>
              simp only [hn]
              exact ⟨rfl, (handleError_fs_clean _ _ _ _ _ _).1,
                (handleError_fs_clean _ _ _ _ _ _).2⟩
            | ok w =>
              simp only [hn]
              exact ⟨rfl, (finishOk_fs_clean _ _ _ _).1,
                (finishOk_fs_clean _ _ _ _).2⟩
          · rw [if_neg hemp]
            cases htr : env.translate lang "ru" t with
            | error e =>
              simp only [htr]
              exact ⟨rfl, (handleError_fs_clean _ _ _ _ _ _).1,
                (handleError_fs_clean _ _ _ _ _ _).2⟩
            | ok transl =>
              simp only [htr]
              cases hr : env.editText (resultText lang t transl) with
              | error e =>
                simp only [hr]
                exact ⟨rfl, (handleError_fs_clean _ _ _ _ _ _).1,
                  (handleError_fs_clean _ _ _ _ _ _).2⟩
              | ok w =>
                simp only [hr]
                exact ⟨rfl, (finishOk_fs_clean _ _ _ _).1,
                  (finishOk_fs_clean _ _ _ _).2⟩

theorem C4_cycle_cleanup_witness :
    (process_language_choice failGetFileEnv "lang_es"
        ⟨.waitingForLanguageChoice, some "clip"⟩ []).session = clearedSession ∧
    videoPathOf "clip" ∉
      (process_language_choice failGetFileEnv "lang_es"
        ⟨.waitingForLanguageChoice, some "clip"⟩ []).fs ∧
    audioPathOf "clip" ∉
      (process_language_choice failGetFileEnv "lang_es"
        ⟨.waitingForLanguageChoice, some "clip"⟩ []).fs :=
  C4_cycle_cleanup failGetFileEnv "lang_es"
    ⟨.waitingForLanguageChoice, some "clip"⟩ [] "es" "clip"
    rfl rfl rfl rfl (by simp) (by simp)

theorem mem_removeIfExists_trace_cases (x : Event) (o : Option String)
    (fs : List String) (tr : List Event)
    (h : x ∈ (removeIfExists o fs tr).2) :
    x ∈ tr ∨ ∃ p, x = Event.removeFile p := by
  cases o with
  | none => exact Or.inl h
  | some p =>
    simp only [removeIfExists] at h
    split at h
    · rcases List.mem_append.1 h with h1 | h1
      · exact Or.inl h1
      · simp at h1
        exact Or.inr ⟨p, h1⟩
    · exact Or.inl h

theorem mem_runFinally_trace_cases (x : Event) (vp ap : Option String)
    (fs : List String) (tr : List Event)
    (h : x ∈ (runFinally vp ap fs tr).2.2) :
    x ∈ tr ∨ (∃ p, x = Event.removeFile p) ∨ x = Event.clearState := by
  rcases List.mem_append.1 h with h1 | h1
  · rcases mem_removeIfExists_trace_cases x ap _ _ h1 with h2 | h2
    · rcases mem_removeIfExists_trace_cases x vp _ _ h2 with h3 | h3
      · exact Or.inl h3
      · exact Or.inr (Or.inl h3)
    · exact Or.inr (Or.inl h2)
  · simp at h1
    exact Or.inr (Or.inr h1)

theorem mem_trace_handleError (x : Event) (env : Env) (e : PyErr)
    (vp ap : Option String) (fs : List String) (tr : List Event)
    (h : x ∈ tr) : x ∈ (handleError env e vp ap fs tr).trace :=
  mem_trace_runFinally x vp ap fs _ (List.mem_append_left _ h)

theorem mem_trace_finishOk (x : Event) (vp ap : Option String)
    (fs : List String) (tr : List Event) (h : x ∈ tr) :
    x ∈ (finishOk vp ap fs tr).trace :=
  mem_trace_runFinally x vp ap fs tr h

theorem mem_handleError_trace_cases (x : Event) (env : Env) (e : PyErr)
    (vp ap : Option String) (fs : List String) (tr : List Event)
    (h : x ∈ (handleError env e vp ap fs tr).trace) :
    x ∈ tr ∨ x = Event.logErr e ∨ x = Event.editText genericErrorText ∨
      (∃ p, x = Event.removeFile p) ∨ x = Event.clearState := by
  have h1 := mem_runFinally_trace_cases x vp ap fs
    (tr ++ [Event.logErr e, Event.editText genericErrorText]) h
  rcases h1 with h1 | h1 | h1
  · rcases List.mem_append.1 h1 with h2 | h2
    · exact Or.inl h2
    · simp at h2
      rcases h2 with h2 | h2
      · exact Or.inr (Or.inl h2)
      · exact Or.inr (Or.inr (Or.inl h2))
  · exact Or.inr (Or.inr (Or.inr (Or.inl h1)))
  · exact Or.inr (Or.inr (Or.inr (Or.inr h1)))

theorem mem_finishOk_trace_cases (x : Event) (vp ap : Option String)
    (fs : List String) (tr : List Event)
    (h : x ∈ (finishOk vp ap fs tr).trace) :
    x ∈ tr ∨ (∃ p, x = Event.removeFile p) ∨ x = Event.clearState :=
  mem_runFinally_trace_cases x vp ap fs tr h

/-- C6: when the recognized transcript is empty or whitespace-only, the cycle
issues the distinct no-speech notice and returns before the translation step:
no translation call of any kind appears in the trace. -/
theorem C6_blank_transcript_skips_translation (env : Env) (data : String)
    (s : Session) (fs : List String) (lang fp t : String) (fid : FileId)
    (hl : langFromData data = some lang)
    (hf : s.videoFileId = some fid)
    (ha : env.answer = .ok ())
    (he : env.editText (processingStartedText lang) = .ok ())
    (hg : env.getFile fid = .ok fp)
    (hd : env.downloadFile fp (videoPathOf fid) = .ok ())
    (hx : env.extractAudio (videoPathOf fid) (audioPathOf fid) = .ok ())
    (ht : env.transcribe (audioPathOf fid) lang = .ok t)
    (hemp : blankTranscript t = true) :
    Event.editText noSpeechText ∈ (process_language_choice env data s fs).trace ∧
    ∀ a b c, Event.translate a b c ∉ (process_language_choice env data s fs).trace := by
  have hred : process_language_choice env data s fs =
      runTry env lang (some fid) fs
        [.answerCb, .editText (processingStartedText lang)] := by
    simp only [process_language_choice, hl, ha, he, hf]
  rw [hred]
  simp only [runTry, hg, hd, hx, ht]
  rw [if_pos hemp]
  cases hn : env.editText noSpeechText with
  | error e =>
    simp only [hn]
    constructor
    · exact mem_trace_handleError _ env e _ _ _ _ (by simp)
    · intro a b c hmem
      have h1 := mem_handleError_trace_cases _ env e _ _ _ _ hmem
      simp at h1
  | ok w =>
    simp only [hn]
    constructor
    · exact mem_trace_finishOk _ _ _ _ _ (by simp)
    · intro a b c hmem
      have h1 := mem_finishOk_trace_cases _ _ _ _ _ hmem
      simp at h1

theorem C6_blank_transcript_skips_translation_witness :
    Event.editText noSpeechText ∈
      (process_language_choice blankTranscriptEnv "lang_en"
        ⟨.waitingForLanguageChoice, some "vid"⟩ []).trace ∧
    ∀ a b c, Event.translate a b c ∉
      (process_language_choice blankTranscriptEnv "lang_en"
        ⟨.waitingForLanguageChoice, some "vid"⟩ []).trace :=
  C6_blank_transcript_skips_translation blankTranscriptEnv "lang_en"
    ⟨.waitingForLanguageChoice, some "vid"⟩ [] "en" "documents/file.mp4"
    "   " "vid" rfl rfl rfl rfl rfl rfl rfl rfl (by decide)

/-- C8 counterexample: for callback data `lang_en_us`, which contains an
underscore, the code picks the second underscore-separated field `en` (from
`split('_')[1]`), not the substring after the first underscore `en_us`; the
recognition call receives `en`, never `en_us`. -/
theorem C8_counterexample_second_field :
    langFromData "lang_en_us" = some "en" ∧
    specAfterFirstUnderscore "lang_en_us" = some "en_us" ∧
    Event.transcribe (audioPathOf "vid2") "en" ∈
      (process_language_choice okEnv "lang_en_us"
        ⟨.waitingForLanguageChoice, some "vid2"⟩ []).trace ∧
    Event.transcribe (audioPathOf "vid2") "en_us" ∉
      (process_language_choice okEnv "lang_en_us"
        ⟨.waitingForLanguageChoice, some "vid2"⟩ []).trace := by decide

/-- C8 amended: the controller uses the second underscore-separated field of
the callback data (for data with exactly one underscore this coincides with
the substring after it) as the source-language code, without checking
membership in the two fixed codes: any such code, `en` and `es` or not, is
passed through to recognition and translation. -/
theorem C8_language_passthrough (env : Env) (data : String) (s : Session)
    (fs : List String) (lang fp t : String) (fid : FileId)
    (hl : langFromData data = some lang)
    (hf : s.videoFileId = some fid)
    (ha : env.answer = .ok ())
    (he : env.editText (processingStartedText lang) = .ok ())
    (hg : env.getFile fid = .ok fp)
    (hd : env.downloadFile fp (videoPathOf fid) = .ok ())
    (hx : env.extractAudio (videoPathOf fid) (audioPathOf fid) = .ok ())
    (ht : env.transcribe (audioPathOf fid) lang = .ok t)
    (hemp : blankTranscript t = false) :
    Event.transcribe (audioPathOf fid) lang ∈
      (process_language_choice env data s fs).trace ∧
    Event.translate lang "ru" t ∈
      (process_language_choice env data s fs).trace := by
  have hred : process_language_choice env data s fs =
      runTry env lang (some fid) fs
        [.answerCb, .editText (processingStartedText lang)] := by
    simp only [process_language_choice, hl, ha, he, hf]
  rw [hred]
  simp only [runTry, hg, hd, hx, ht]
  rw [if_neg (by simp [hemp])]
  cases htr : env.translate lang "ru" t with
  | error e =>
    simp only [htr]
    exact ⟨mem_trace_handleError _ env e _ _ _ _ (by simp),
      mem_trace_handleError _ env e _ _ _ _ (by simp)⟩
  | ok transl =>
    simp only [htr]
    cases hr : env.editText (resultText lang t transl) with
    | error e =>
      simp only [hr]
      exact ⟨mem_trace_handleError _ env e _ _ _ _ (by simp),
        mem_trace_handleError _ env e _ _ _ _ (by simp)⟩
    | ok w =>
      simp only [hr]
      exact ⟨mem_trace_finishOk _ _ _ _ _ (by simp),
        mem_trace_finishOk _ _ _ _ _ (by simp)⟩

theorem C8_language_passthrough_witness :
    Event.transcribe (audioPathOf "vid3") "fr" ∈
      (process_language_choice okEnv "lang_fr"
        ⟨.waitingForLanguageChoice, some "vid3"⟩ []).trace ∧
    Event.translate "fr" "ru" "hello" ∈
      (process_language_choice okEnv "lang_fr"
        ⟨.waitingForLanguageChoice, some "vid3"⟩ []).trace :=
  C8_language_passthrough okEnv "lang_fr"
    ⟨.waitingForLanguageChoice, some "vid3"⟩ [] "fr" "documents/file.mp4"
    "hello" "vid3" rfl rfl rfl rfl rfl rfl rfl rfl (by decide)

/-- C10: the language split, the callback answer and the prompt edit run
before the `try` block, so an exception there — the `IndexError` on data
without an underscore, or a failure of `callback.answer()` or of the first
`edit_text` — escapes the handler: no generic failure notice, no cleanup, the
session keeps its awaiting-language state and pending reference. -/
theorem C10_pre_try_exceptions_escape (env : Env) (data : String)
    (s : Session) (fs : List String)
    (hs : s.state = .waitingForLanguageChoice) :
    (langFromData data = none →
      process_language_choice env data s fs =
          ⟨.uncaught indexErrText, s, fs, []⟩ ∧
        (process_language_choice env data s fs).session.state =
          .waitingForLanguageChoice) ∧
    (∀ lang e, langFromData data = some lang → env.answer = .error e →
      process_language_choice env data s fs =
          ⟨.uncaught e, s, fs, [.answerCb]⟩ ∧
        (process_language_choice env data s fs).session.state =
          .waitingForLanguageChoice) ∧
    (∀ lang e, langFromData data = some lang → env.answer = .ok () →
      env.editText (processingStartedText lang) = .error e →
      process_language_choice env data s fs =
          ⟨.uncaught e, s, fs,
            [.answerCb, .editText (processingStartedText lang)]⟩ ∧
        (process_language_choice env data s fs).session.state =
          .waitingForLanguageChoice) := by
  refine ⟨?_, ?_, ?_⟩
  · intro hn
    have heq : process_language_choice env data s fs =
        ⟨.uncaught indexErrText, s, fs, []⟩ := by
      simp only [process_language_choice, hn]
    exact ⟨heq, by rw [heq]; exact hs⟩
  · intro lang e hl hae
    have heq : process_language_choice env data s fs =
        ⟨.uncaught e, s, fs, [.answerCb]⟩ := by
      simp only [process_language_choice, hl, hae]
    exact ⟨heq, by rw [heq]; exact hs⟩
  · intro lang e hl hao hee
    have heq : process_language_choice env data s fs =
        ⟨.uncaught e, s, fs,
          [.answerCb, .editText (processingStartedText lang)]⟩ := by
      simp only [process_language_choice, hl, hao, hee]
    exact ⟨heq, by rw [heq]; exact hs⟩

theorem C10_pre_try_exceptions_escape_witness :
    process_language_choice okEnv "nounderscore"
        ⟨.waitingForLanguageChoice, some "v"⟩ [] =
      ⟨.uncaught indexErrText, ⟨.waitingForLanguageChoice, some "v"⟩, [], []⟩ ∧
    process_language_choice failAnswerEnv "lang_en"
        ⟨.waitingForLanguageChoice, some "v"⟩ [] =
      ⟨.uncaught "message not modified",
        ⟨.waitingForLanguageChoice, some "v"⟩, [], [.answerCb]⟩ :=
  ⟨((C10_pre_try_exceptions_escape okEnv "nounderscore"
      ⟨.waitingForLanguageChoice, some "v"⟩ [] rfl).1 (by decide)).1,
   ((C10_pre_try_exceptions_escape failAnswerEnv "lang_en"
      ⟨.waitingForLanguageChoice, some "v"⟩ [] rfl).2.1 "en"
      "message not modified" (by decide) rfl).1⟩

end TranscribeBot
